import Mathlib

/-!
Verification of the TCP flow-control parameter sweep
(`research/topics/tcp-flow-control/scripts/sweep.py`).

Shallow embedding conventions:
* Python `float` values are modelled as `Rat`; Python `int` as `Int`.
* The IEEE special value `float('inf')` returned by the config properties is
  modelled by `Option Rat`, where `none` stands for positive infinity and
  `some x` for the finite value `x`.  A finite float divided by infinity is
  `0.0` in Python; the model reflects that.
* Wall-clock time (`time.monotonic()`) is modelled by an explicit rational
  clock threaded through the sender loop; the duration of each `send` call is
  an input of the model.
* Lean functions are total, so "the code does not raise" holds by
  construction once the exceptional paths are represented as explicit values.
-/

namespace Sweep

/-- Embedding of the dataclass `ExperimentConfig` (sweep.py lines 40-47):
`recv_buf` (SO_RCVBUF bytes), `delay_ms` (delay between recv() calls),
`read_size` (bytes per recv()), `send_rate_mbps` (target MB/s),
`duration` (seconds, default 10.0). -/
structure ExperimentConfig where
  recv_buf : Int
  delay_ms : Rat
  read_size : Int
  send_rate_mbps : Rat
  duration : Rat
deriving DecidableEq, Repr

/-- Embedding of the property `ExperimentConfig.receiver_capacity_bps`
(lines 49-54): `float('inf')` when `delay_ms <= 0`, otherwise
`read_size / (delay_ms / 1000.0)`.  `none` encodes infinity. -/
def receiver_capacity_bps (c : ExperimentConfig) : Option Rat :=
  if c.delay_ms ≤ 0 then none
  else some ((c.read_size : Rat) / (c.delay_ms / 1000))

/-- Embedding of the property `ExperimentConfig.send_rate_bps` (lines 56-59):
`send_rate_mbps * 1024 * 1024`. -/
def send_rate_bps (c : ExperimentConfig) : Rat :=
  c.send_rate_mbps * 1024 * 1024

/-- Embedding of the property `ExperimentConfig.oversubscription_ratio`
(lines 61-66).  The Python code first tests `receiver_capacity_bps == 0`
(infinity compares unequal to 0, so the infinite-capacity case falls through
to the division) and `send_rate_bps / float('inf')` evaluates to `0.0`. -/
def oversubRatioVal (c : ExperimentConfig) : Option Rat :=
  match receiver_capacity_bps c with
  | none => some 0
  | some cap => if cap = 0 then none else some (send_rate_bps c / cap)

/-- Order on modelled float values (`none` = positive infinity): every value
is at most infinity, infinity exceeds every finite value, and finite values
compare as rationals. -/
def infLeB (a b : Option Rat) : Bool :=
  match a, b with
  | _, none => true
  | none, some _ => false
  | some x, some y => decide (x ≤ y)

/-- Model of `itertools.product(as, bs, cs, ds)`: the documented semantics is
nested for-loops with the rightmost input advancing fastest. -/
def pyProduct4 {α β γ δ : Type} (as : List α) (bs : List β) (cs : List γ) (ds : List δ) :
    List (α × β × γ × δ) :=
  as.flatMap fun a => bs.flatMap fun b => cs.flatMap fun c => ds.map fun d => (a, b, c, d)

/-- Embedding of `generate_sweep_configs` (lines 414-433): iterate
`itertools.product(recv_bufs, delays_ms, read_sizes, send_rates_mbps)` and
append one `ExperimentConfig` per tuple. -/
def generate_sweep_configs (recv_bufs : List Int) (delays_ms : List Rat)
    (read_sizes : List Int) (send_rates_mbps : List Rat) (dur : Rat) :
    List ExperimentConfig :=
  (pyProduct4 recv_bufs delays_ms read_sizes send_rates_mbps).map
    fun t => ⟨t.1, t.2.1, t.2.2.1, t.2.2.2, dur⟩

/-- Modelled from the spec: the cross-product "equal to nested iteration with
buffer size as the outermost varying dimension and send rate as the
innermost", written directly as nested iteration. -/
def sweepConfigsNestedSpec (recv_bufs : List Int) (delays_ms : List Rat)
    (read_sizes : List Int) (send_rates_mbps : List Rat) (dur : Rat) :
    List ExperimentConfig :=
  recv_bufs.flatMap fun rb =>
    delays_ms.flatMap fun d =>
      read_sizes.flatMap fun rs =>
        send_rates_mbps.map fun sr => ⟨rb, d, rs, sr, dur⟩

/-- One `self.socket.send(data)` call of the sender loop, as observed by the
model: `elapsed` is the value of `send_elapsed` (seconds) and `sent` the byte
count the call reported. -/
structure SendEvent where
  elapsed : Rat
  sent : Int
deriving DecidableEq, Repr

/-- State of the `Sender.run` loop (sweep.py lines 191-236).  `clock` models
`time.monotonic()`; `next_send`, `total_bytes`, `blocked_time`, `block_count`
mirror the Python variables.  `deadlines` is a ghost field recording every
value assigned to `next_send` inside the loop, newest last. -/
structure SenderState where
  clock : Rat
  next_send : Rat
  total_bytes : Int
  blocked_time : Rat
  block_count : Nat
  deadlines : List Rat
deriving DecidableEq, Repr

/-- One iteration of the `while time.monotonic() < end_time` body
(lines 214-231): read the clock, sleep until `next_send` when early, set
`next_send = time.monotonic() + target_interval`, perform the write (taking
`e.elapsed` seconds), classify the write as a block when
`send_elapsed > 0.05`, and add the reported byte count. -/
def senderStep (target_interval : Rat) (e : SendEvent) (s : SenderState) : SenderState :=
  let afterSleep := max s.clock s.next_send
  let nd := afterSleep + target_interval
  let afterSend := afterSleep + e.elapsed
  { clock := afterSend
    next_send := nd
    total_bytes := s.total_bytes + e.sent
    blocked_time := if e.elapsed > 1/20 then s.blocked_time + e.elapsed else s.blocked_time
    block_count := if e.elapsed > 1/20 then s.block_count + 1 else s.block_count
    deadlines := s.deadlines ++ [nd] }

/-- The `Sender.run` loop started at time `start` and executing one iteration
per element of `events` (the number of iterations the `end_time` guard and
the connection admit is abstracted by the length of `events`).  Initially
`next_send = start_time` (line 211) and all counters are zero
(lines 187-189). -/
def senderRun (target_interval : Rat) (start : Rat) (events : List SendEvent) : SenderState :=
  events.foldl (fun s e => senderStep target_interval e s)
    ⟨start, start, 0, 0, 0, []⟩

/-- Embedding of the dict built by `analyze_pcap` (lines 244-254), plus the
`window_oscillations` key which the Python code only inserts when at least
one window value parses; its absence is modelled by the default `0`, the
value `run_experiment` reads via `.get('window_oscillations', 0)`. -/
structure PcapMetrics where
  zero_window_count : Nat := 0
  zero_window_duration_ms : Rat := 0
  window_min : Int := 0
  window_max : Int := 0
  window_mean : Rat := 0
  window_values : List Int := []
  window_oscillations : Nat := 0
  total_packets : Nat := 0
  retransmit_count : Nat := 0
  dup_ack_count : Nat := 0
deriving DecidableEq, Repr

/-- Embedding of the oscillation loop (lines 294-297):
for `i in range(1, len(windows))`, count the positions where
`abs(windows[i] - windows[i-1]) > threshold` (an integer magnitude compared
against the float threshold). -/
def countOsc (threshold : Rat) : List Int → Nat
  | [] => 0
  | [_] => 0
  | a :: b :: t => (if ((b - a).natAbs : Rat) > threshold then 1 else 0) + countOsc threshold (b :: t)

/-- Embedding of `analyze_pcap` (lines 239-326).  The external `tshark`
invocations are abstracted by their outputs: `fileExists` is
`os.path.exists(pcap_path)`, `zwCount` the number of zero-window frame lines,
`windowLines` the `tcp.window_size` output lines (`some n` when `int(line)`
succeeds, `none` when it raises `ValueError`), `retrans` and `dupack` the
retransmission and duplicate-ACK line counts.  When the file is missing the
initial all-zero dict is returned; when no window value parses the window
statistics keep their zero defaults. -/
def analyze_pcap (fileExists : Bool) (zwCount : Nat) (windowLines : List (Option Int))
    (retrans dupack : Nat) : PcapMetrics :=
  if fileExists = false then {}
  else
    let base : PcapMetrics :=
      { zero_window_count := zwCount, retransmit_count := retrans, dup_ack_count := dupack }
    match windowLines.filterMap id with
    | [] => base
    | w :: t =>
      let mx := t.foldl max w
      let mn := t.foldl min w
      let ws := w :: t
      let threshold := (mx : Rat) * (1/5)
      { base with
        window_values := ws
        window_min := mn
        window_max := mx
        window_mean := (ws.sum : Rat) / (ws.length : Rat)
        total_packets := ws.length
        window_oscillations := countOsc threshold ws }

/-- Embedding of the dataclass `ExperimentMetrics` (lines 69-108).  All
defaults are as in the source.  `oversubRatioEcho` stands for the source
field `oversubscription_ratio`; `receiver_capacity_kbps` and it use the
`Option Rat` float model (`none` = infinity). -/
structure ExperimentMetrics where
  recv_buf : Int := 0
  delay_ms : Rat := 0
  read_size : Int := 0
  send_rate_mbps : Rat := 0
  receiver_capacity_kbps : Option Rat := some 0
  oversubRatioEcho : Option Rat := some 0
  duration_actual : Rat := 0
  bytes_transferred : Int := 0
  actual_throughput_kbps : Rat := 0
  zero_window_count : Nat := 0
  zero_window_duration_ms : Rat := 0
  zero_window_pct : Rat := 0
  window_min : Int := 0
  window_max : Int := 0
  window_mean : Rat := 0
  window_oscillations : Nat := 0
  total_packets : Nat := 0
  retransmit_count : Nat := 0
  dup_ack_count : Nat := 0
  timestamp : String := ""
  success : Bool := false
  error : String := ""
deriving DecidableEq, Repr

/-- Outcome of `Sender.run` as seen by `run_experiment`.  `refused` is the
`ConnectionRefusedError` branch (lines 200-202), where the method returns
`(0, 0.0, 0)` without raising; `completed` carries the returned tuple
`(bytes_sent, blocked_time, block_count)` of a run that reached the loop. -/
inductive SendOutcome where
  | refused : SendOutcome
  | completed : Int → Rat → Nat → SendOutcome
deriving DecidableEq, Repr

/-- The `(bytes_sent, blocked_time, block_count)` tuple `Sender.run` returns
for each outcome. -/
def sendReturn : SendOutcome → Int × Rat × Nat
  | .refused => (0, 0, 0)
  | .completed b t c => (b, t, c)

/-- Environment of one `run_experiment` call: either some step of the `try`
body raised an exception whose description is `msg` (modelled at the start of
the body; an exception leaves `success`, `error` and the config echo exactly
as the model does, which is all the development uses), or the body ran to
completion with the given sender outcome, measured wall-clock duration, and
pcap-analysis result (`none` when no capture file was present). -/
inductive TrialOutcome where
  | raised : String → TrialOutcome
  | ran : SendOutcome → Rat → Option PcapMetrics → TrialOutcome
deriving DecidableEq, Repr

/-- Embedding of `run_experiment` (lines 329-411).  `ts` is the
`datetime.now().isoformat()` string.  The metrics record is created with the
configuration echoed and the derived capacity (divided by 1024) and
oversubscription ratio filled in; on a completed body the transfer and pcap
metrics are recorded and `success` is set; on an exception `error` is set to
the exception text and `success` to `False`. -/
def run_experiment (config : ExperimentConfig) (ts : String) (outcome : TrialOutcome) :
    ExperimentMetrics :=
  let base : ExperimentMetrics :=
    { recv_buf := config.recv_buf
      delay_ms := config.delay_ms
      read_size := config.read_size
      send_rate_mbps := config.send_rate_mbps
      receiver_capacity_kbps := (receiver_capacity_bps config).map (fun x => x / 1024)
      oversubRatioEcho := oversubRatioVal config
      timestamp := ts }
  match outcome with
  | .raised msg => { base with success := false, error := msg }
  | .ran send dur pcap =>
    let r := sendReturn send
    let m1 : ExperimentMetrics :=
      { base with
        duration_actual := dur
        bytes_transferred := r.1
        actual_throughput_kbps := if 0 < dur then ((r.1 : Rat) / dur) / 1024 else 0 }
    let m2 : ExperimentMetrics :=
      match pcap with
      | none => m1
      | some p =>
        let m := { m1 with
          zero_window_count := p.zero_window_count
          window_min := p.window_min
          window_max := p.window_max
          window_mean := p.window_mean
          window_oscillations := p.window_oscillations
          total_packets := p.total_packets
          retransmit_count := p.retransmit_count
          dup_ack_count := p.dup_ack_count }
        if 0 < dur then
          { m with
            zero_window_duration_ms := (p.zero_window_count : Rat) * 10
            zero_window_pct := (((p.zero_window_count : Rat) * 10) / 1000) / dur * 100 }
        else m
    { m2 with success := true }

/-- The metrics record echoes the four configuration fields
(lines 334-338). -/
def echoesConfig (m : ExperimentMetrics) (c : ExperimentConfig) : Prop :=
  m.recv_buf = c.recv_buf ∧ m.delay_ms = c.delay_ms ∧
    m.read_size = c.read_size ∧ m.send_rate_mbps = c.send_rate_mbps

instance (m : ExperimentMetrics) (c : ExperimentConfig) : Decidable (echoesConfig m c) := by
  unfold echoesConfig; infer_instance

/-- The `for i, config in enumerate(configs)` loop of `run_sweep`
(lines 455-482), carrying the running index: each trial's environment is
`oracle i` and its timestamp `tss i`, and the resulting record is appended to
`results`. -/
def runSweepAux (oracle : Nat → TrialOutcome) (tss : Nat → String) :
    Nat → List ExperimentConfig → List ExperimentMetrics
  | _, [] => []
  | i, c :: cs => run_experiment c (tss i) (oracle i) :: runSweepAux oracle tss (i + 1) cs

/-- Embedding of `run_sweep` (lines 436-484): run `run_experiment` once per
configuration, in list order, appending each record to the result list (the
CSV row written per iteration carries the same record and is not modelled
separately). -/
def run_sweep (configs : List ExperimentConfig) (oracle : Nat → TrialOutcome)
    (tss : Nat → String) : List ExperimentMetrics :=
  runSweepAux oracle tss 0 configs

/-- As long as every write finishes within the pacing interval, the loop
wakes exactly at each scheduled deadline, so the recorded deadlines advance
arithmetically from the `next_send` of the starting state. -/
lemma senderSteps_deadlines (ti : Rat) :
    ∀ (events : List SendEvent) (s : SenderState),
      (∀ e ∈ events, e.elapsed ≤ ti) →
      s.clock ≤ s.next_send →
      (events.foldl (fun st e => senderStep ti e st) s).deadlines
        = s.deadlines ++ (List.range events.length).map
            (fun i : Nat => s.next_send + ((i : Rat) + 1) * ti) := by
  intro events
  induction events with
  | nil => intro s _ _; simp
  | cons e es ih =>
    intro s hb hcs
    have hmax : max s.clock s.next_send = s.next_send := max_eq_right hcs
    have hstep : (senderStep ti e s).clock ≤ (senderStep ti e s).next_send := by
      simp only [senderStep]
      exact add_le_add_left (hb e (by simp)) _
    have ih₂ := ih (senderStep ti e s) (fun x hx => hb x (by simp [hx])) hstep
    rw [List.foldl_cons, ih₂]
    simp only [senderStep, hmax, List.length_cons]
    rw [List.range_succ_eq_map, List.map_cons, List.map_map,
      List.append_assoc, List.singleton_append]
    congr 1
    congr 1
    · push_cast; ring
    · refine List.map_congr_left ?_
      intro i _
      simp only [Function.comp_apply]
      push_cast
      ring

/-- The block counter and the accumulated blocked time of the sender loop
count and sum exactly the writes whose elapsed time exceeds 0.05 seconds. -/
lemma senderSteps_blocks (ti : Rat) :
    ∀ (events : List SendEvent) (s : SenderState),
      (events.foldl (fun st e => senderStep ti e st) s).block_count
          = s.block_count + events.countP (fun e => decide ((1 : Rat)/20 < e.elapsed)) ∧
        (events.foldl (fun st e => senderStep ti e st) s).blocked_time
          = s.blocked_time
              + ((events.filter (fun e => decide ((1 : Rat)/20 < e.elapsed))).map
                  SendEvent.elapsed).sum := by
  intro events
  induction events with
  | nil => intro s; simp
  | cons e es ih =>
    intro s
    have ih₂ := ih (senderStep ti e s)
    constructor
    · rw [List.foldl_cons, ih₂.1, List.countP_cons]
      simp only [senderStep, decide_eq_true_eq, gt_iff_lt]
      by_cases h : (1 : Rat)/20 < e.elapsed
      · rw [if_pos h, if_pos h]; omega
      · rw [if_neg h, if_neg h]; omega
    · rw [List.foldl_cons, ih₂.2, List.filter_cons]
      simp only [senderStep, decide_eq_true_eq, gt_iff_lt]
      by_cases h : (1 : Rat)/20 < e.elapsed
      · rw [if_pos h, if_pos h, List.map_cons, List.sum_cons]; ring
      · rw [if_neg h, if_neg h]

/-- Claim C1, counterexample.  The claim states that the k-th scheduled
deadline always equals the start time plus k times the target interval.  In
the code `next_send = time.monotonic() + target_interval` is computed from
the current time, so a single slow write shifts all later deadlines: with
target interval 1 s, start time 0 and a first write taking 2 s, the second
scheduled deadline is 3, not 0 + 2 * 1 = 2. -/
theorem C1_counterexample :
    (senderRun 1 0 [⟨2, 8192⟩, ⟨0, 8192⟩]).deadlines = [1, 3] ∧
      (3 : Rat) ≠ 0 + 2 * 1 := by
  constructor
  · norm_num [senderRun, senderStep]
  · norm_num

/-- Claim C1, amended.  The sender advances `next_send` from the current
time after sleeping, not from the previous scheduled deadline; consequently
the k-th scheduled deadline equals start time plus k times the target
interval only under the proviso that every write completes within the target
interval.  Under that proviso the recorded deadlines are exactly
`start + (k+1) * targetInterval` for iteration `k`. -/
theorem C1_amended_deadlines (ti start : Rat) (events : List SendEvent)
    (h : ∀ e ∈ events, e.elapsed ≤ ti) :
    (senderRun ti start events).deadlines
      = (List.range events.length).map (fun i : Nat => start + ((i : Rat) + 1) * ti) := by
  unfold senderRun
  rw [senderSteps_deadlines ti events _ h (le_refl start)]
  simp

/-- Witness for C1: a run with interval 1 s whose writes take 1/2 s and 0 s
satisfies the hypothesis, and its deadlines are 1 and 2. -/
theorem C1_amended_deadlines_witness :
    (∀ e ∈ ([⟨1/2, 8192⟩, ⟨0, 1⟩] : List SendEvent), e.elapsed ≤ (1 : Rat)) ∧
      (senderRun 1 0 [⟨1/2, 8192⟩, ⟨0, 1⟩]).deadlines
        = (List.range ([⟨1/2, 8192⟩, ⟨0, 1⟩] : List SendEvent).length).map
            (fun i : Nat => 0 + ((i : Rat) + 1) * 1) := by
  have h : ∀ e ∈ ([⟨1/2, 8192⟩, ⟨0, 1⟩] : List SendEvent), e.elapsed ≤ (1 : Rat) := by
    intro e he
    fin_cases he <;> norm_num
  exact ⟨h, C1_amended_deadlines 1 0 _ h⟩

/-- Claim C3, counterexample.  The claim puts the blocking threshold at
100 ms; the code uses `send_elapsed > 0.05` (50 ms).  A write taking 70 ms is
at or below the claimed 100 ms threshold, yet the block counter is
incremented. -/
theorem C3_counterexample :
    (senderRun 1 0 [⟨7/100, 8192⟩]).block_count = 1 ∧ ¬ ((1 : Rat)/10 < 7/100) := by
  constructor
  · norm_num [senderRun, senderStep]
  · norm_num

/-- Claim C3, amended.  A write is classified as a block exactly when its
elapsed time strictly exceeds 50 ms (0.05 s): the block counter equals the
number of such writes and the accumulated blocked time equals the sum of
their elapsed times; writes at or below 50 ms change neither. -/
theorem C3_amended_block_threshold (ti start : Rat) (events : List SendEvent) :
    (senderRun ti start events).block_count
        = events.countP (fun e => decide ((1 : Rat)/20 < e.elapsed)) ∧
      (senderRun ti start events).blocked_time
        = ((events.filter (fun e => decide ((1 : Rat)/20 < e.elapsed))).map
            SendEvent.elapsed).sum := by
  unfold senderRun
  have h := senderSteps_blocks ti events ⟨start, start, 0, 0, 0, []⟩
  constructor
  · rw [h.1]; simp
  · rw [h.2]; simp

/-- Claim C2, counterexample.  The claim states that a trial whose sender
gets connection-refused yields a record with `succeeded=false` and a
non-empty error detail.  In the code `Sender.run` catches
`ConnectionRefusedError` and returns `(0, 0.0, 0)` without raising, so
`run_experiment` completes its body normally and marks the record
`success=True` with an empty error string. -/
theorem C2_counterexample :
    (run_experiment ⟨8192, 25, 4096, 1, 5⟩ "t" (.ran .refused 5 none)).success = true ∧
      (run_experiment ⟨8192, 25, 4096, 1, 5⟩ "t" (.ran .refused 5 none)).error = "" := by
  constructor <;> rfl

/-- Claim C2, amended.  When the sender cannot connect (connection refused),
the trial still produces a metrics record with `bytes_transferred = 0` and
the sweep does not crash (`Sender.run` returns instead of raising, and the
model is a total function); however the record reports `success = true` with
an empty error detail, and it still echoes the configuration. -/
theorem C2_amended_refused (c : ExperimentConfig) (dur : Rat) (p : Option PcapMetrics)
    (ts : String) :
    (run_experiment c ts (.ran .refused dur p)).bytes_transferred = 0 ∧
      (run_experiment c ts (.ran .refused dur p)).success = true ∧
      (run_experiment c ts (.ran .refused dur p)).error = "" ∧
      echoesConfig (run_experiment c ts (.ran .refused dur p)) c := by
  cases p <;> simp only [run_experiment, sendReturn, echoesConfig] <;>
    first
      | (split <;> simp)
      | simp

/-- Claim C4, confirmed.  `run_experiment` is modelled as a total function
(the code catches every `Exception` in its try block), and when the trial
body raises an exception with a non-empty description the returned record has
`success = false` and that non-empty description as its error; every returned
record, for any outcome, echoes the configuration fields `recv_buf`,
`delay_ms`, `read_size` and `send_rate_mbps`. -/
theorem C4_failure_record (c : ExperimentConfig) (ts : String) (msg : String)
    (outcome : TrialOutcome) (h : msg ≠ "") :
    (run_experiment c ts (.raised msg)).success = false ∧
      (run_experiment c ts (.raised msg)).error = msg ∧
      (run_experiment c ts (.raised msg)).error ≠ "" ∧
      echoesConfig (run_experiment c ts outcome) c := by
  refine ⟨rfl, rfl, h, ?_⟩
  cases outcome with
  | raised m => simp [run_experiment, echoesConfig]
  | ran send dur pcap =>
    cases pcap <;> simp only [run_experiment, echoesConfig] <;>
      first
        | (split <;> simp)
        | simp

/-- Witness for C4 at a concrete configuration and a concrete exception. -/
theorem C4_failure_record_witness :
    ("boom" ≠ "") ∧
      ((run_experiment ⟨1, 2, 3, 4, 5⟩ "t" (.raised "boom")).success = false ∧
        (run_experiment ⟨1, 2, 3, 4, 5⟩ "t" (.raised "boom")).error = "boom" ∧
        (run_experiment ⟨1, 2, 3, 4, 5⟩ "t" (.raised "boom")).error ≠ "" ∧
        echoesConfig (run_experiment ⟨1, 2, 3, 4, 5⟩ "t" (.raised "boom")) ⟨1, 2, 3, 4, 5⟩) := by
  have h : ("boom" : String) ≠ "" := by decide
  exact ⟨h, C4_failure_record ⟨1, 2, 3, 4, 5⟩ "t" "boom" (.raised "boom") h⟩

lemma runSweepAux_length (oracle : Nat → TrialOutcome) (tss : Nat → String) :
    ∀ (cfgs : List ExperimentConfig) (k : Nat),
      (runSweepAux oracle tss k cfgs).length = cfgs.length
  | [], _ => rfl
  | _ :: cs, k => by
    simp [runSweepAux, runSweepAux_length oracle tss cs (k + 1)]

lemma runSweepAux_getElem (oracle : Nat → TrialOutcome) (tss : Nat → String) :
    ∀ (cfgs : List ExperimentConfig) (k i : Nat),
      (runSweepAux oracle tss k cfgs)[i]?
        = (cfgs[i]?).map (fun c => run_experiment c (tss (k + i)) (oracle (k + i)))
  | [], _, _ => by simp [runSweepAux]
  | c :: cs, k, 0 => by simp [runSweepAux]
  | c :: cs, k, i + 1 => by
    simp only [runSweepAux, List.getElem?_cons_succ]
    rw [runSweepAux_getElem oracle tss cs (k + 1) i,
      show k + 1 + i = k + (i + 1) from by omega]

/-- Claim C5, confirmed.  `run_sweep` produces exactly one metrics record per
input configuration, in input order: the result list has the same length as
the configuration list, and its i-th element is exactly the record of the
i-th configuration's trial — no configuration is skipped, duplicated or
reordered, whatever each trial's outcome is. -/
theorem C5_one_record_per_config (cfgs : List ExperimentConfig)
    (oracle : Nat → TrialOutcome) (tss : Nat → String) :
    (run_sweep cfgs oracle tss).length = cfgs.length ∧
      ∀ i : Nat, (run_sweep cfgs oracle tss)[i]?
          = (cfgs[i]?).map (fun c => run_experiment c (tss i) (oracle i)) := by
  constructor
  · exact runSweepAux_length oracle tss cfgs 0
  · intro i
    have h := runSweepAux_getElem oracle tss cfgs 0 i
    simpa using h

/-- Claim C7, confirmed.  `generate_sweep_configs` returns the full
cross-product in the order of nested iteration with buffer size as the
outermost (slowest-varying) dimension and send rate as the innermost
(fastest-varying) one.  Both sides are pure functions of their inputs, so
the sequence is deterministic and side-effect free by construction. -/
theorem C7_cross_product_order (recv_bufs : List Int) (delays_ms : List Rat)
    (read_sizes : List Int) (send_rates_mbps : List Rat) (dur : Rat) :
    generate_sweep_configs recv_bufs delays_ms read_sizes send_rates_mbps dur
      = sweepConfigsNestedSpec recv_bufs delays_ms read_sizes send_rates_mbps dur := by
  simp [generate_sweep_configs, pyProduct4, sweepConfigsNestedSpec,
    List.map_flatMap, List.map_map, Function.comp_def]

/-- Claim C8, confirmed.  For a configuration with `delay_ms = 0` the
receiver capacity is reported as infinite (`none`) instead of raising a
division-by-zero error, and the oversubscription ratio is still a definite
value (`0`, the Python result of dividing a finite float by infinity):
both divisions are guarded against zero denominators. -/
theorem C8_zero_delay_guard (c : ExperimentConfig) (h : c.delay_ms = 0) :
    receiver_capacity_bps c = none ∧ oversubRatioVal c = some 0 := by
  have h1 : receiver_capacity_bps c = none := by
    simp [receiver_capacity_bps, h]
  exact ⟨h1, by simp [oversubRatioVal, h1]⟩

/-- Witness for C8 at a concrete zero-delay configuration. -/
theorem C8_zero_delay_guard_witness :
    ((⟨65536, 0, 8192, 1/2, 5⟩ : ExperimentConfig).delay_ms = 0) ∧
      (receiver_capacity_bps ⟨65536, 0, 8192, 1/2, 5⟩ = none ∧
        oversubRatioVal ⟨65536, 0, 8192, 1/2, 5⟩ = some 0) :=
  ⟨rfl, C8_zero_delay_guard _ rfl⟩

/-- Claim C9, counterexample.  The claim quantifies over every pair of
configurations agreeing on buffer, delay, read size and duration.  For a
negative `read_size` the receiver capacity is a negative number and dividing
by it reverses the order: with read_size = -1 and delay 1000 ms, raising the
send rate from 1 to 2 MB/s lowers the oversubscription ratio from -1048576
to -2097152. -/
theorem C9_counterexample :
    ((⟨0, 1000, -1, 1, 10⟩ : ExperimentConfig).recv_buf
        = (⟨0, 1000, -1, 2, 10⟩ : ExperimentConfig).recv_buf) ∧
      ((⟨0, 1000, -1, 1, 10⟩ : ExperimentConfig).delay_ms
        = (⟨0, 1000, -1, 2, 10⟩ : ExperimentConfig).delay_ms) ∧
      ((⟨0, 1000, -1, 1, 10⟩ : ExperimentConfig).read_size
        = (⟨0, 1000, -1, 2, 10⟩ : ExperimentConfig).read_size) ∧
      ((⟨0, 1000, -1, 1, 10⟩ : ExperimentConfig).duration
        = (⟨0, 1000, -1, 2, 10⟩ : ExperimentConfig).duration) ∧
      ((⟨0, 1000, -1, 1, 10⟩ : ExperimentConfig).send_rate_mbps
        ≤ (⟨0, 1000, -1, 2, 10⟩ : ExperimentConfig).send_rate_mbps) ∧
      infLeB (oversubRatioVal ⟨0, 1000, -1, 1, 10⟩)
          (oversubRatioVal ⟨0, 1000, -1, 2, 10⟩) = false := by
  refine ⟨rfl, rfl, rfl, rfl, by norm_num, ?_⟩
  norm_num [infLeB, oversubRatioVal, receiver_capacity_bps, send_rate_bps]

/-- Claim C9, amended.  For two configurations agreeing on receive buffer,
read delay, read size and duration, with a nonnegative read size, a lower or
equal `send_rate_mbps` gives a lower or equal oversubscription ratio (in the
order where infinity is the top element). -/
theorem C9_oversub_monotone (c1 c2 : ExperimentConfig)
    (_hb : c1.recv_buf = c2.recv_buf) (hd : c1.delay_ms = c2.delay_ms)
    (hr : c1.read_size = c2.read_size) (_hdur : c1.duration = c2.duration)
    (hnn : 0 ≤ c1.read_size)
    (hrate : c1.send_rate_mbps ≤ c2.send_rate_mbps) :
    infLeB (oversubRatioVal c1) (oversubRatioVal c2) = true := by
  have hsend : send_rate_bps c1 ≤ send_rate_bps c2 := by
    unfold send_rate_bps
    have h1 : c1.send_rate_mbps * 1024 ≤ c2.send_rate_mbps * 1024 :=
      mul_le_mul_of_nonneg_right hrate (by norm_num)
    exact mul_le_mul_of_nonneg_right h1 (by norm_num)
  unfold oversubRatioVal receiver_capacity_bps
  rcases le_or_lt c1.delay_ms 0 with h | h
  · rw [if_pos h, if_pos (hd ▸ h)]
    simp [infLeB]
  · have h2 : ¬ c2.delay_ms ≤ 0 := by rw [← hd]; exact not_le.mpr h
    rw [if_neg (not_le.mpr h), if_neg h2, ← hd, ← hr]
    simp only []
    by_cases hc : (c1.read_size : Rat) / (c1.delay_ms / 1000) = 0
    · rw [if_pos hc, if_pos hc]
      simp [infLeB]
    · rw [if_neg hc, if_neg hc]
      have hnum : (0 : Rat) ≤ (c1.read_size : Rat) := by exact_mod_cast hnn
      have hden : (0 : Rat) < c1.delay_ms / 1000 := by positivity
      have hge : (0 : Rat) ≤ (c1.read_size : Rat) / (c1.delay_ms / 1000) :=
        div_nonneg hnum (le_of_lt hden)
      have hpos : (0 : Rat) < (c1.read_size : Rat) / (c1.delay_ms / 1000) :=
        lt_of_le_of_ne hge (Ne.symm hc)
      simp only [infLeB, decide_eq_true_eq]
      exact (div_le_div_iff_of_pos_right hpos).mpr hsend

/-- Witness for C9 at two concrete configurations with a nonnegative read
size and increasing send rate. -/
theorem C9_oversub_monotone_witness :
    (0 ≤ (⟨4096, 10, 2048, 1/10, 10⟩ : ExperimentConfig).read_size) ∧
      ((⟨4096, 10, 2048, 1/10, 10⟩ : ExperimentConfig).send_rate_mbps
        ≤ (⟨4096, 10, 2048, 1/4, 10⟩ : ExperimentConfig).send_rate_mbps) ∧
      infLeB (oversubRatioVal ⟨4096, 10, 2048, 1/10, 10⟩)
          (oversubRatioVal ⟨4096, 10, 2048, 1/4, 10⟩) = true := by
  refine ⟨by norm_num, by norm_num, ?_⟩
  exact C9_oversub_monotone ⟨4096, 10, 2048, 1/10, 10⟩ ⟨4096, 10, 2048, 1/4, 10⟩
    rfl rfl rfl rfl (by norm_num) (by norm_num)

/-- A left fold of `min` over a list is a lower bound of the seed and of
every element, matching Python's `min(windows)`. -/
lemma foldl_min_le :
    ∀ (t : List Int) (w : Int), t.foldl min w ≤ w ∧ ∀ x ∈ t, t.foldl min w ≤ x
  | [], w => ⟨le_refl w, by simp⟩
  | a :: t, w => by
    have ih := foldl_min_le t (min w a)
    refine ⟨le_trans ih.1 (min_le_left w a), ?_⟩
    intro x hx
    rcases List.mem_cons.mp hx with rfl | hx
    · exact le_trans ih.1 (min_le_right w x)
    · exact ih.2 x hx

/-- A left fold of `min` over a list is the seed or one of the elements. -/
lemma foldl_min_mem :
    ∀ (t : List Int) (w : Int), t.foldl min w = w ∨ t.foldl min w ∈ t
  | [], w => Or.inl rfl
  | a :: t, w => by
    rcases foldl_min_mem t (min w a) with h | h
    · rcases min_choice w a with hm | hm
      · exact Or.inl (by rw [List.foldl_cons, h, hm])
      · exact Or.inr (by rw [List.foldl_cons, h, hm]; exact List.mem_cons_self a t)
    · exact Or.inr (List.mem_cons_of_mem a h)

/-- A left fold of `max` over a list is an upper bound of the seed and of
every element, matching Python's `max(windows)`. -/
lemma foldl_max_ge :
    ∀ (t : List Int) (w : Int), w ≤ t.foldl max w ∧ ∀ x ∈ t, x ≤ t.foldl max w
  | [], w => ⟨le_refl w, by simp⟩
  | a :: t, w => by
    have ih := foldl_max_ge t (max w a)
    refine ⟨le_trans (le_max_left w a) ih.1, ?_⟩
    intro x hx
    rcases List.mem_cons.mp hx with rfl | hx
    · exact le_trans (le_max_right w x) ih.1
    · exact ih.2 x hx

/-- A left fold of `max` over a list is the seed or one of the elements. -/
lemma foldl_max_mem :
    ∀ (t : List Int) (w : Int), t.foldl max w = w ∨ t.foldl max w ∈ t
  | [], w => Or.inl rfl
  | a :: t, w => by
    rcases foldl_max_mem t (max w a) with h | h
    · rcases max_choice w a with hm | hm
      · exact Or.inl (by rw [List.foldl_cons, h, hm])
      · exact Or.inr (by rw [List.foldl_cons, h, hm]; exact List.mem_cons_self a t)
    · exact Or.inr (List.mem_cons_of_mem a h)

/-- A common lower bound of all elements bounds the sum from below by
`bound * length`. -/
lemma mul_length_le_sum :
    ∀ (l : List Int) (m : Int), (∀ x ∈ l, m ≤ x) → m * (l.length : Int) ≤ l.sum
  | [], m, _ => by simp
  | a :: t, m, h => by
    have ih := mul_length_le_sum t m (fun x hx => h x (List.mem_cons_of_mem a hx))
    have ha := h a (List.mem_cons_self a t)
    calc m * ((a :: t).length : Int) = m * (t.length : Int) + m := by
          simp [List.length_cons]; ring
      _ ≤ t.sum + a := add_le_add ih ha
      _ = (a :: t).sum := by rw [List.sum_cons]; ring

/-- A common upper bound of all elements bounds the sum from above by
`bound * length`. -/
lemma sum_le_mul_length :
    ∀ (l : List Int) (m : Int), (∀ x ∈ l, x ≤ m) → l.sum ≤ m * (l.length : Int)
  | [], m, _ => by simp
  | a :: t, m, h => by
    have ih := sum_le_mul_length t m (fun x hx => h x (List.mem_cons_of_mem a hx))
    have ha := h a (List.mem_cons_self a t)
    calc (a :: t).sum = t.sum + a := by rw [List.sum_cons]; ring
      _ ≤ m * (t.length : Int) + m := add_le_add ih ha
      _ = m * ((a :: t).length : Int) := by simp [List.length_cons]; ring

/-- The oscillation loop counts one comparison per consecutive pair, so its
result is at most the list length minus one. -/
lemma countOsc_le (th : Rat) : ∀ l : List Int, countOsc th l ≤ l.length - 1
  | [] => by simp [countOsc]
  | [_] => by simp [countOsc]
  | a :: b :: t => by
    have ih := countOsc_le th (b :: t)
    rw [countOsc]
    simp only [List.length_cons] at *
    split <;> omega

/-- The oscillation loop over indices `1..len-1` counts exactly the
consecutive pairs (as produced by zipping the list with its tail) whose
absolute difference exceeds the threshold. -/
lemma countOsc_eq_countP (th : Rat) :
    ∀ l : List Int,
      countOsc th l
        = (l.zip l.tail).countP (fun p => decide (((p.2 - p.1).natAbs : Rat) > th))
  | [] => rfl
  | [_] => rfl
  | a :: b :: t => by
    rw [countOsc, countOsc_eq_countP th (b :: t)]
    simp only [List.tail_cons, List.zip_cons_cons, List.countP_cons,
      decide_eq_true_eq]
    split <;> omega

/-- Closed form of `analyze_pcap` when the capture file exists and at least
one window value parses. -/
lemma analyze_pcap_nonempty (zw rt da : Nat) (lines : List (Option Int)) (w : Int)
    (t : List Int) (hws : lines.filterMap id = w :: t) :
    analyze_pcap true zw lines rt da =
      { zero_window_count := zw
        retransmit_count := rt
        dup_ack_count := da
        window_values := w :: t
        window_min := t.foldl min w
        window_max := t.foldl max w
        window_mean := ((w :: t).sum : Rat) / (((w :: t).length : Nat) : Rat)
        total_packets := (w :: t).length
        window_oscillations := countOsc (((t.foldl max w : Int) : Rat) * (1/5)) (w :: t) } := by
  simp [analyze_pcap, hws]

/-- Claim C6, confirmed.  When at least one window value parses, the
analyzer's `window_oscillations` equals the number of consecutive pairs of
window values whose absolute difference strictly exceeds 20% of the reported
maximum, `window_min` and `window_max` are respectively a member of and a
lower/upper bound for the observed values (hence the minimum and maximum),
and `window_mean` is the arithmetic mean (sum divided by count). -/
theorem C6_window_stats (zw rt da : Nat) (lines : List (Option Int))
    (h : lines.filterMap id ≠ []) :
    ((analyze_pcap true zw lines rt da).window_min ∈ lines.filterMap id ∧
        ∀ x ∈ lines.filterMap id, (analyze_pcap true zw lines rt da).window_min ≤ x) ∧
      ((analyze_pcap true zw lines rt da).window_max ∈ lines.filterMap id ∧
        ∀ x ∈ lines.filterMap id, x ≤ (analyze_pcap true zw lines rt da).window_max) ∧
      (analyze_pcap true zw lines rt da).window_mean
        = ((lines.filterMap id).sum : Rat) / (((lines.filterMap id).length : Nat) : Rat) ∧
      (analyze_pcap true zw lines rt da).window_oscillations
        = ((lines.filterMap id).zip (lines.filterMap id).tail).countP
            (fun p => decide (((p.2 - p.1).natAbs : Rat)
              > (((analyze_pcap true zw lines rt da).window_max : Int) : Rat) * (1/5))) := by
  rcases hws : lines.filterMap id with _ | ⟨w, t⟩
  · exact absurd hws h
  · rw [analyze_pcap_nonempty zw rt da lines w t hws]
    refine ⟨⟨?_, ?_⟩, ⟨?_, ?_⟩, rfl, ?_⟩
    · rcases foldl_min_mem t w with hm | hm
      · simp [hm]
      · simp [List.mem_cons_of_mem w hm]
    · intro x hx
      rcases List.mem_cons.mp hx with rfl | hx
      · exact (foldl_min_le t x).1
      · exact (foldl_min_le t w).2 x hx
    · rcases foldl_max_mem t w with hm | hm
      · simp [hm]
      · simp [List.mem_cons_of_mem w hm]
    · intro x hx
      rcases List.mem_cons.mp hx with rfl | hx
      · exact (foldl_max_ge t x).1
      · exact (foldl_max_ge t w).2 x hx
    · exact countOsc_eq_countP _ (w :: t)

/-- Witness for C6 at a concrete parsed window series. -/
theorem C6_window_stats_witness :
    ((analyze_pcap true 0 [some 10, some 100, some 20] 0 0).window_min
          ∈ ([some 10, some 100, some 20] : List (Option Int)).filterMap id ∧
        ∀ x ∈ ([some 10, some 100, some 20] : List (Option Int)).filterMap id,
          (analyze_pcap true 0 [some 10, some 100, some 20] 0 0).window_min ≤ x) ∧
      ((analyze_pcap true 0 [some 10, some 100, some 20] 0 0).window_max
          ∈ ([some 10, some 100, some 20] : List (Option Int)).filterMap id ∧
        ∀ x ∈ ([some 10, some 100, some 20] : List (Option Int)).filterMap id,
          x ≤ (analyze_pcap true 0 [some 10, some 100, some 20] 0 0).window_max) ∧
      (analyze_pcap true 0 [some 10, some 100, some 20] 0 0).window_mean
        = ((([some 10, some 100, some 20] : List (Option Int)).filterMap id).sum : Rat)
            / (((([some 10, some 100, some 20] : List (Option Int)).filterMap id).length : Nat) : Rat) ∧
      (analyze_pcap true 0 [some 10, some 100, some 20] 0 0).window_oscillations
        = ((([some 10, some 100, some 20] : List (Option Int)).filterMap id).zip
              (([some 10, some 100, some 20] : List (Option Int)).filterMap id).tail).countP
            (fun p => decide (((p.2 - p.1).natAbs : Rat)
              > (((analyze_pcap true 0 [some 10, some 100, some 20] 0 0).window_max : Int) : Rat)
                  * (1/5))) :=
  C6_window_stats 0 0 0 [some 10, some 100, some 20] (by simp)

/-- Claim C10, confirmed.  Invariants of `analyze_pcap`: when the capture
file exists and at least one window value parses,
`window_min ≤ window_mean ≤ window_max`, `total_packets` equals the number of
parsed window values, and the oscillation count is at most
`total_packets - 1`; when the file is missing the whole record is the
all-zero default, and when no window value parses the window statistics are
all zero. -/
theorem C10_analyze_invariants :
    (∀ (zw rt da : Nat) (lines : List (Option Int)), lines.filterMap id ≠ [] →
        (((analyze_pcap true zw lines rt da).window_min : Rat)
            ≤ (analyze_pcap true zw lines rt da).window_mean ∧
          (analyze_pcap true zw lines rt da).window_mean
            ≤ ((analyze_pcap true zw lines rt da).window_max : Rat) ∧
          (analyze_pcap true zw lines rt da).total_packets
            = (lines.filterMap id).length ∧
          (analyze_pcap true zw lines rt da).window_oscillations
            ≤ (analyze_pcap true zw lines rt da).total_packets - 1)) ∧
      (∀ (zw rt da : Nat) (lines : List (Option Int)),
        analyze_pcap false zw lines rt da = {}) ∧
      (∀ (fe : Bool) (zw rt da : Nat) (lines : List (Option Int)),
        lines.filterMap id = [] →
          ((analyze_pcap fe zw lines rt da).window_min = 0 ∧
            (analyze_pcap fe zw lines rt da).window_max = 0 ∧
            (analyze_pcap fe zw lines rt da).window_mean = 0 ∧
            (analyze_pcap fe zw lines rt da).window_oscillations = 0 ∧
            (analyze_pcap fe zw lines rt da).total_packets = 0)) := by
  refine ⟨?_, ?_, ?_⟩
  · intro zw rt da lines h
    rcases hws : lines.filterMap id with _ | ⟨w, t⟩
    · exact absurd hws h
    · rw [analyze_pcap_nonempty zw rt da lines w t hws]
      have hlen : (0 : Rat) < (((w :: t).length : Nat) : Rat) := by
        simp [List.length_cons]
        positivity
      have hminb : ∀ x ∈ w :: t, t.foldl min w ≤ x := by
        intro x hx
        rcases List.mem_cons.mp hx with rfl | hx
        · exact (foldl_min_le t x).1
        · exact (foldl_min_le t w).2 x hx
      have hmaxb : ∀ x ∈ w :: t, x ≤ t.foldl max w := by
        intro x hx
        rcases List.mem_cons.mp hx with rfl | hx
        · exact (foldl_max_ge t x).1
        · exact (foldl_max_ge t w).2 x hx
      refine ⟨?_, ?_, rfl, ?_⟩
      · rw [le_div_iff₀ hlen]
        have hsum := mul_length_le_sum (w :: t) (t.foldl min w) hminb
        exact_mod_cast hsum
      · rw [div_le_iff₀ hlen]
        have hsum := sum_le_mul_length (w :: t) (t.foldl max w) hmaxb
        have : ((w :: t).sum : Rat)
            ≤ ((t.foldl max w : Int) : Rat) * (((w :: t).length : Nat) : Rat) := by
          exact_mod_cast hsum
        exact this
      · exact countOsc_le _ (w :: t)
  · intro zw rt da lines
    rfl
  · intro fe zw rt da lines h
    cases fe
    · simp [analyze_pcap]
    · simp [analyze_pcap, h]

/-- Witness for C10: a nonempty parsed series, a missing capture file, and an
existing file with no parsable window values. -/
theorem C10_analyze_invariants_witness :
    ((((analyze_pcap true 1 [some 3, some 5] 0 0).window_min : Rat)
          ≤ (analyze_pcap true 1 [some 3, some 5] 0 0).window_mean ∧
        (analyze_pcap true 1 [some 3, some 5] 0 0).window_mean
          ≤ ((analyze_pcap true 1 [some 3, some 5] 0 0).window_max : Rat) ∧
        (analyze_pcap true 1 [some 3, some 5] 0 0).total_packets
          = (([some 3, some 5] : List (Option Int)).filterMap id).length ∧
        (analyze_pcap true 1 [some 3, some 5] 0 0).window_oscillations
          ≤ (analyze_pcap true 1 [some 3, some 5] 0 0).total_packets - 1) ∧
      analyze_pcap false 1 [some 3] 2 3 = {} ∧
      ((analyze_pcap true 4 [none] 5 6).window_min = 0 ∧
        (analyze_pcap true 4 [none] 5 6).window_max = 0 ∧
        (analyze_pcap true 4 [none] 5 6).window_mean = 0 ∧
        (analyze_pcap true 4 [none] 5 6).window_oscillations = 0 ∧
        (analyze_pcap true 4 [none] 5 6).total_packets = 0)) :=
  ⟨C10_analyze_invariants.1 1 0 0 [some 3, some 5] (by simp),
    C10_analyze_invariants.2.1 1 2 3 [some 3],
    C10_analyze_invariants.2.2 true 4 5 6 [none] (by simp)⟩

end Sweep
